import Mathlib

/-!
Verification of the `nearby-trains` train tracker against its design
specification.  The JavaScript sources are shallowly embedded as Lean
functions:

* `MTAClient.readVarint` / `MTAClient.parseMessage` / `MTAClient.parseFeed`
  embed the hand-written GTFS-RT protobuf decoder of `js/mta-client.js`.
  JavaScript 32-bit bitwise arithmetic is made explicit (`% 2 ^ 32`, shift
  counts taken mod 32); IEEE float values are represented exactly as
  rationals (`Option ℚ`, with `none` standing for the non-finite values
  NaN/±Inf, which compare unequal to every number under `===`).
* `Tracker.processTrains` / `Tracker.logSpotting` embed `js/tracker.js`;
  the floating-point haversine/bearing computations of `js/amtraker.js` and
  `js/location.js` are abstracted into a `Geo` parameter, so theorems about
  the tracker hold for every distance function.
* `Storage.addSpotting` embeds `js/storage.js`; `localStorage` is threaded
  as an explicit history list, wall-clock time (`Date.now()`) as a `now : ℕ`
  argument, and `Date.toDateString` grouping as an abstract `dayOf : ℕ → ℕ`.

Loops are written with an explicit fuel argument so that every definition is
structurally recursive and kernel-computable; each initial fuel value is
large enough that the fuel never runs out on the executions the JavaScript
loop itself completes (where the JS would diverge, noted per definition, the
fuel version instead stops).
-/

instance {ε α : Type u} [DecidableEq ε] [DecidableEq α] : DecidableEq (Except ε α) :=
  fun a b =>
  match a, b with
  | .error x, .error y =>
    if h : x = y then .isTrue (by rw [h])
    else .isFalse (by simp [h])
  | .ok x, .ok y =>
    if h : x = y then .isTrue (by rw [h])
    else .isFalse (by simp [h])
  | .error _, .ok _ => .isFalse (by simp)
  | .ok _, .error _ => .isFalse (by simp)

namespace MTAClient

/-- `DataView.getUint8` over a byte buffer modelled as a `List ℕ`
(each entry is one byte; reads are masked to 8 bits).  Out-of-range access
cannot occur in `readVarint` thanks to the loop guard, mirroring the JS
bounds check. -/
def getUint8 (dv : List Nat) (i : Nat) : Nat := dv.getD i 0 % 256

/-- The loop of `readVarint` (js/mta-client.js lines 39-46):
`while (offset < dv.byteLength) { b = getUint8(offset++); result |= (b & 0x7f) << shift;
 if ((b & 0x80) === 0) break; shift += 7; if (shift > 35) throw 'Varint too long'; }`.
JS `<<` shifts by the count mod 32 and truncates to 32 bits, hence
`shift % 32` and `% 2 ^ 32`.  When the buffer is exhausted the loop falls
through and the partial `result` is returned (the source has no truncation
error).  The fuel-0 branch returns exactly the loop-exit value; with the
initial fuel `dv.length` it is reached only when `offset ≥ dv.length`. -/
def readVarintGo (dv : List Nat) : Nat → Nat → Nat → Nat → Nat →
    Except String (Nat × Nat)
  | 0, _, result, _, bytesRead => Except.ok (result, bytesRead)
  | fuel + 1, offset, result, shift, bytesRead =>
    if offset < dv.length then
      let b := getUint8 dv offset
      let result' := result ||| (((b % 128) <<< (shift % 32)) % 2 ^ 32)
      if b < 128 then
        Except.ok (result', bytesRead + 1)
      else if shift + 7 > 35 then
        Except.error "Varint too long"
      else
        readVarintGo dv fuel (offset + 1) result' (shift + 7) (bytesRead + 1)
    else
      Except.ok (result, bytesRead)

/-- `MTAClient.readVarint(dv, offset)`: returns `(value, bytesRead)`, or the
error the JS code throws. -/
def readVarint (dv : List Nat) (offset : Nat) : Except String (Nat × Nat) :=
  readVarintGo dv dv.length offset 0 0 0

/-- Modelled from the spec: the standard base-128 varint encoding
("a variable-length, base-128, little-endian-group integer encoding
terminated by a byte with its high bit clear").  The repository contains
only the decoder; this encoder realises the spec's `encode(v)` from the
round-trip property.  Fuel `v` suffices since the value shrinks by a factor
of 128 every step. -/
def encodeVarintGo : Nat → Nat → List Nat
  | 0, v => [v % 128]
  | fuel + 1, v =>
    if v < 128 then [v] else (v % 128 + 128) :: encodeVarintGo fuel (v / 128)

/-- The varint encoding of `v`. -/
def encodeVarint (v : Nat) : List Nat := encodeVarintGo v v

/-! ### Wire-format message parser and feed decoder (js/mta-client.js 54-263) -/

/-- The value slot of a parsed field.  JS stores a number (for varints and
floats) or a `{start, end, buffer}` span object; floats are kept as their
exact rational value, `none` marking NaN/±Inf. -/
inductive FVal where
  | vint (v : Nat)
  | f64 (v : Option ℚ)
  | span (start stop : Nat)
  | f32 (v : Option ℚ)
deriving DecidableEq, Repr

/-- One entry of the field map: `{ wireType, value }`. -/
structure TField where
  wireType : Nat
  value : FVal
deriving DecidableEq, Repr

/-- Exact value of an IEEE-754 binary32 bit pattern, `none` for NaN/±Inf.
Both zeroes map to `0`, matching `=== 0`. -/
def f32FromBits (bits : Nat) : Option ℚ :=
  let s : Nat := bits / 2 ^ 31 % 2
  let e : Nat := bits / 2 ^ 23 % 2 ^ 8
  let m : Nat := bits % 2 ^ 23
  if e = 255 then none
  else
    let mag : ℚ :=
      if e = 0 then mkRat m (2 ^ 149) else mkRat ((2 ^ 23 + m) * 2 ^ e) (2 ^ 150)
    some (if s = 1 then -mag else mag)

/-- Exact value of an IEEE-754 binary64 bit pattern, `none` for NaN/±Inf. -/
def f64FromBits (bits : Nat) : Option ℚ :=
  let s : Nat := bits / 2 ^ 63 % 2
  let e : Nat := bits / 2 ^ 52 % 2 ^ 11
  let m : Nat := bits % 2 ^ 52
  if e = 2047 then none
  else
    let mag : ℚ :=
      if e = 0 then mkRat m (2 ^ 1074) else mkRat ((2 ^ 52 + m) * 2 ^ e) (2 ^ 1075)
    some (if s = 1 then -mag else mag)

/-- Little-endian read of `n` bytes at `pos` (the DataView float getters with
`littleEndian = true`); callers check `pos + n ≤ dv.length` first, as the
DataView throws `RangeError` otherwise. -/
def readLE (dv : List Nat) (pos n : Nat) : Nat :=
  (List.range n).foldl (fun acc i => acc + getUint8 dv (pos + i) * 2 ^ (8 * i)) 0

/-- The `while (pos < end)` loop of `parseMessage`: read a tag varint, split
into field number (`>>> 3`) and wire type (`& 0x7`), dispatch, and append the
tagged field; any other wire type ends the current scope without error.
Errors thrown by `readVarint` or by the DataView float getters propagate.
Fuel note: every iteration that reads at least one byte advances `pos`, so
`stop + 1` fuel covers every execution the JS loop completes; on a corrupt
sub-message span (`stop` beyond the buffer) where the JS would spin forever
re-reading an empty tag, the fuel instead runs out and the fields read so far
are returned. -/
def parseMsgLoop (dv : List Nat) (stop : Nat) :
    Nat → Nat → List (Nat × TField) → Except String (List (Nat × TField))
  | 0, _, acc => Except.ok acc.reverse
  | fuel + 1, pos, acc =>
    if pos < stop then
      match readVarint dv pos with
      | .error e => .error e
      | .ok tag =>
        let pos1 := pos + tag.2
        let fieldNum := tag.1 >>> 3
        let wireType := tag.1 % 8
        if wireType = 0 then
          match readVarint dv pos1 with
          | .error e => .error e
          | .ok v =>
            parseMsgLoop dv stop fuel (pos1 + v.2) ((fieldNum, ⟨0, .vint v.1⟩) :: acc)
        else if wireType = 1 then
          if pos1 + 8 ≤ dv.length then
            parseMsgLoop dv stop fuel (pos1 + 8)
              ((fieldNum, ⟨1, .f64 (f64FromBits (readLE dv pos1 8))⟩) :: acc)
          else .error "RangeError"
        else if wireType = 2 then
          match readVarint dv pos1 with
          | .error e => .error e
          | .ok len =>
            let pos2 := pos1 + len.2
            parseMsgLoop dv stop fuel (pos2 + len.1)
              ((fieldNum, ⟨2, .span pos2 (pos2 + len.1)⟩) :: acc)
        else if wireType = 5 then
          if pos1 + 4 ≤ dv.length then
            parseMsgLoop dv stop fuel (pos1 + 4)
              ((fieldNum, ⟨5, .f32 (f32FromBits (readLE dv pos1 4))⟩) :: acc)
          else .error "RangeError"
        else Except.ok acc.reverse
    else Except.ok acc.reverse

/-- `MTAClient.parseMessage(buffer, start, end)`: the multi-valued field map,
modelled as the ordered list of `(fieldNumber, field)` pairs. -/
def parseMessage (dv : List Nat) (start stop : Nat) :
    Except String (List (Nat × TField)) :=
  parseMsgLoop dv stop (stop + 1) start []

/-- `fields.get(n)`: the fields recorded for field number `n`, in arrival
order.  The JS map holds a non-empty array exactly for present keys, so the
empty list models `undefined`. -/
def mget (m : List (Nat × TField)) (n : Nat) : List TField :=
  (m.filter (fun p => p.1 == n)).map Prod.snd

/-- `MTAClient.getString(field)`: the bytes of a length-delimited span
(UTF-8 decoding is modelled as the identity on the byte list); empty for an
absent field or wrong wire type; `RangeError` when the span exceeds the
buffer (thrown by the `Uint8Array` constructor). -/
def getString (dv : List Nat) (f : Option TField) : Except String (List Nat) :=
  match f with
  | some ⟨2, .span s e⟩ =>
    if e ≤ dv.length then Except.ok ((dv.drop s).take (e - s))
    else Except.error "RangeError"
  | _ => Except.ok []

/-- `MTAClient.getFloat(field)`: widens float32, float64 or varint fields to
a number; 0 for anything else.  `none` is a non-finite float (NaN/±Inf). -/
def getFloat (f : Option TField) : Option ℚ :=
  match f with
  | none => some 0
  | some ⟨5, .f32 v⟩ => v
  | some ⟨1, .f64 v⟩ => v
  | some ⟨0, .vint v⟩ => some (v : ℚ)
  | some _ => some 0

/-- `MTAClient.getSubMessage(field)`: recursively parse a length-delimited
span; `null` (here `none`) for an absent field or wrong wire type. -/
def getSubMessage (dv : List Nat) (f : Option TField) :
    Except String (Option (List (Nat × TField))) :=
  match f with
  | some ⟨2, .span s e⟩ =>
    match parseMessage dv s e with
    | .error err => .error err
    | .ok fields => .ok (some fields)
  | _ => Except.ok none

/-- JS `x === 0` for a number modelled as `Option ℚ`: both IEEE zeroes are
`0`, and NaN/±Inf (`none`) compare false. -/
def jsEqZero : Option ℚ → Bool
  | some q => q == 0
  | none => false

/-- The raw vehicle-position record `parseFeed` pushes (string fields as byte
lists; `bearing` is `null` or a number; `currentStatus`/`timestamp` hold the
raw `.value` slot the JS reads without conversion). -/
structure Vehicle where
  entityId : List Nat
  lat : Option ℚ
  lon : Option ℚ
  bearing : Option (Option ℚ)
  speedMph : Option ℚ
  tripId : List Nat
  routeId : List Nat
  vehicleId : List Nat
  vehicleLabel : List Nat
  stopId : List Nat
  currentStatus : FVal
  timestamp : FVal
deriving DecidableEq, Repr

/-- `xField ? getString(xField[0]) : ''`. -/
def getStringHead (dv : List Nat) (fields : List TField) : Except String (List Nat) :=
  match fields with
  | [] => Except.ok []
  | f :: _ => getString dv (some f)

/-- `speedMs * 2.23694` (m/s to mph), as the exact rational product
`q * 223694/100000`, written with `mkRat` so it stays kernel-computable. -/
def msToMph (q : ℚ) : ℚ := mkRat (q.num * 223694) (q.den * 100000)

/-- `xField ? getFloat(xField[0]) : 0`. -/
def floatAt (fields : List TField) : Option ℚ :=
  match fields with
  | [] => some 0
  | f :: _ => getFloat (some f)

/-- The TripDescriptor block of `parseFeed` (field 1 of the vehicle
position, trip id at field 1 and route id at field 3). -/
def tripInfo (dv : List Nat) (vp : List (Nat × TField)) :
    Except String (List Nat × List Nat) :=
  match mget vp 1 with
  | [] => Except.ok ([], [])
  | tf :: _ =>
    match getSubMessage dv (some tf) with
    | .error e => .error e
    | .ok none => Except.ok ([], [])
    | .ok (some trip) =>
      match getStringHead dv (mget trip 1) with
      | .error e => .error e
      | .ok tid =>
        match getStringHead dv (mget trip 3) with
        | .error e => .error e
        | .ok rid => Except.ok (tid, rid)

/-- The VehicleDescriptor block of `parseFeed` (MTA extension at field 8;
vehicle id at field 1, label at field 2). -/
def vehInfo (dv : List Nat) (vp : List (Nat × TField)) :
    Except String (List Nat × List Nat) :=
  match mget vp 8 with
  | [] => Except.ok ([], [])
  | vf :: _ =>
    match getSubMessage dv (some vf) with
    | .error e => .error e
    | .ok none => Except.ok ([], [])
    | .ok (some veh) =>
      match getStringHead dv (mget veh 1) with
      | .error e => .error e
      | .ok vid =>
        match getStringHead dv (mget veh 2) with
        | .error e => .error e
        | .ok vl => Except.ok (vid, vl)

/-- The body of `parseFeed`'s entity loop for one repeated `FeedEntity`
field: extract the vehicle position (field 4), resolve the position
sub-message trying standard field 3 first and MTA's field 2 as fallback,
skip the entity (`ok none`) when a required part is missing or when both
resolved coordinates are exactly zero, and otherwise build the record. -/
def parseEntity (dv : List Nat) (ef : TField) : Except String (Option Vehicle) :=
  match getSubMessage dv (some ef) with
  | .error e => .error e
  | .ok none => Except.ok none
  | .ok (some entity) =>
    match getStringHead dv (mget entity 1) with
    | .error e => .error e
    | .ok entityId =>
      match mget entity 4 with
      | [] => Except.ok none
      | vf :: _ =>
        match getSubMessage dv (some vf) with
        | .error e => .error e
        | .ok none => Except.ok none
        | .ok (some vp) =>
          match (match mget vp 3 with | [] => mget vp 2 | l => l) with
          | [] => Except.ok none
          | pf :: _ =>
            match getSubMessage dv (some pf) with
            | .error e => .error e
            | .ok none => Except.ok none
            | .ok (some pos) =>
              let lat := floatAt (mget pos 1)
              let lon := floatAt (mget pos 2)
              if jsEqZero lat && jsEqZero lon then Except.ok none
              else
                match tripInfo dv vp with
                | .error e => .error e
                | .ok (tripId, routeId) =>
                  match vehInfo dv vp with
                  | .error e => .error e
                  | .ok (vehicleId, vehicleLabel) =>
                    match getStringHead dv
                        (match mget vp 7 with | [] => mget vp 5 | l => l) with
                    | .error e => .error e
                    | .ok stopId =>
                      Except.ok (some
                        { entityId := entityId
                          lat := lat
                          lon := lon
                          bearing :=
                            match mget pos 3 with
                            | [] => none
                            | f :: _ => some (getFloat (some f))
                          speedMph := (floatAt (mget pos 4)).map msToMph
                          tripId := tripId
                          routeId := routeId
                          vehicleId := vehicleId
                          vehicleLabel := vehicleLabel
                          stopId := stopId
                          currentStatus :=
                            match mget vp 4 with
                            | [] => FVal.vint 2
                            | f :: _ => f.value
                          timestamp :=
                            match mget vp 5 with
                            | [] => FVal.vint 0
                            | f :: _ => f.value })

/-- The `for (const entityField of entities)` loop of `parseFeed`. -/
def parseFeedLoop (dv : List Nat) :
    List TField → List Vehicle → Except String (List Vehicle)
  | [], acc => Except.ok acc
  | ef :: rest, acc =>
    match parseEntity dv ef with
    | .error e => .error e
    | .ok none => parseFeedLoop dv rest acc
    | .ok (some v) => parseFeedLoop dv rest (acc ++ [v])

/-- `MTAClient.parseFeed(arrayBuffer)`: parse the top-level FeedMessage and
walk the repeated entity field (field 2). -/
def parseFeed (dv : List Nat) : Except String (List Vehicle) :=
  match parseMessage dv 0 dv.length with
  | .error e => .error e
  | .ok feedMsg => parseFeedLoop dv (mget feedMsg 2) []

/-- A synthetic 10-byte Position sub-message: latitude (field 1, float32)
64.0 and longitude (field 2, float32) −64.0. -/
def positionSpanBytes : List Nat := [0x0D, 0, 0, 0x80, 0x42, 0x15, 0, 0, 0x80, 0xC2]

/-- A synthetic FeedMessage with one entity (id "e1") whose vehicle position
carries `positionSpanBytes` at the standard GTFS-RT field number 3. -/
def feedStdBuffer : List Nat :=
  [0x12, 18] ++ ([0x0A, 2, 101, 49] ++ ([0x22, 12] ++ ([0x1A, 10] ++ positionSpanBytes)))

/-- The same FeedMessage with the position at the vendor-specific alternate
field number 2 (and nothing at field 3). -/
def feedAltBuffer : List Nat :=
  [0x12, 18] ++ ([0x0A, 2, 101, 49] ++ ([0x22, 12] ++ ([0x12, 10] ++ positionSpanBytes)))

/-- A FeedMessage whose vehicle position carries a Position at both field
numbers: latitude 32.0 / longitude 16.0 at the alternate field 2, and
`positionSpanBytes` (latitude 64.0) at the standard field 3. -/
def feedBothBuffer : List Nat :=
  [0x12, 30] ++ ([0x0A, 2, 101, 49] ++ ([0x22, 24] ++
    (([0x12, 10] ++ [0x0D, 0, 0, 0, 0x42, 0x15, 0, 0, 0x80, 0x41]) ++
     ([0x1A, 10] ++ positionSpanBytes))))

/-- A FeedMessage whose entity has latitude exactly 0 but longitude 64.0. -/
def feedOneZeroBuffer : List Nat :=
  [0x12, 18] ++ ([0x0A, 2, 101, 49] ++ ([0x22, 12] ++
    ([0x1A, 10] ++ [0x0D, 0, 0, 0, 0, 0x15, 0, 0, 0x80, 0x42])))

end MTAClient

/-! ### Spotting storage (js/storage.js) and proximity tracker (js/tracker.js)

`localStorage` is threaded as an explicit history list, `Date.now()` as a
`now : ℕ` argument, and the calendar-day grouping `new Date(t).toDateString()`
as an abstract `dayOf : ℕ → ℕ`.  The floating-point trigonometry of
`AmtrakerClient.haversineDistance` / `Location.getBearing` is abstracted into
a `Geo` record of arbitrary functions, so the tracker theorems hold for every
distance function; distances, speeds and coordinates are rationals. -/

/-- One entry of the `nt_history` spotting log (js/storage.js 126-141). -/
structure HistEntry where
  trainID : String
  trainNum : String
  routeName : String
  provider : String
  origName : String
  destName : String
  locationName : String
  closestDistance : ℚ
  closestTime : Nat
  speed : ℚ
  heading : String
  firstSeen : Nat
  lastSeen : Nat
  sightings : Nat
deriving DecidableEq, Repr

/-- The projection `Tracker.logSpotting` passes to `Storage.addSpotting`
(js/tracker.js 114-129). -/
structure Spotting where
  trainID : String
  trainNum : String
  routeName : String
  provider : String
  distance : ℚ
  lat : ℚ
  lon : ℚ
  velocity : ℚ
  heading : String
  bearing : String
  origName : String
  destName : String
  trainState : String
  locationName : String
deriving DecidableEq, Repr

namespace Storage

/-- The `history.findIndex(...)` dedupe lookup of `addSpotting`: same train
id, same calendar day of the entry's first sighting, same location name. -/
def spotIndex (dayOf : Nat → Nat) (now : Nat) (history : List HistEntry)
    (train : Spotting) : Option Nat :=
  history.findIdx? fun h =>
    h.trainID == train.trainID && dayOf h.firstSeen == dayOf now &&
      h.locationName == train.locationName

/-- The fresh entry `addSpotting` pushes for a first sighting of the key. -/
def newEntry (now : Nat) (train : Spotting) : HistEntry :=
  { trainID := train.trainID
    trainNum := train.trainNum
    routeName := train.routeName
    provider := train.provider
    origName := train.origName
    destName := train.destName
    locationName := train.locationName
    closestDistance := train.distance
    closestTime := now
    speed := train.velocity
    heading := train.heading
    firstSeen := now
    lastSeen := now
    sightings := 1 }

/-- The in-place update `addSpotting` applies on a repeat of the key: keep
the closer distance (with its time), refresh `lastSeen`, bump `sightings`
(the JS `(h.sightings || 1) + 1` treats a falsy count as 1). -/
def updateEntry (now : Nat) (train : Spotting) (h : HistEntry) : HistEntry :=
  let h1 :=
    if train.distance < h.closestDistance then
      { h with closestDistance := train.distance, closestTime := now }
    else h
  { h1 with
    lastSeen := now
    sightings := (if h1.sightings = 0 then 1 else h1.sightings) + 1 }

/-- `Storage.addSpotting(train)` (js/storage.js 106-147): dedupe on
`(trainID, calendar day, locationName)`; update the matching entry in place
or push a new one; keep only the last 500 entries (`history.slice(-500)`).
The JS function has no `return` statement, so the call evaluates to
`undefined`, modelled as `none` — this is the value the caller's
`if (added)` sees. -/
def addSpotting (dayOf : Nat → Nat) (now : Nat) (history : List HistEntry)
    (train : Spotting) : List HistEntry × Option Bool :=
  let history' :=
    match spotIndex dayOf now history train with
    | some i => history.mapIdx fun j h => if j = i then updateEntry now train h else h
    | none => history ++ [newEntry now train]
  (history'.drop (history'.length - 500), none)

end Storage

/-- The geometry helpers the tracker calls (`AmtrakerClient.haversineDistance`,
`Location.getBearing`, `Location.getBearingArrow`).  Their IEEE trigonometric
evaluation is not modelled; they are abstract parameters, so every tracker
theorem holds for all of them. -/
structure Geo where
  haversineDistance : ℚ → ℚ → ℚ → ℚ → ℚ
  getBearing : ℚ → ℚ → ℚ → ℚ → String
  getBearingArrow : String → String

/-- A train record as consumed by `Tracker.processTrains` (the canonical
shape shared by the Amtraker and MTA normalizers). -/
structure Train where
  trainID : String
  trainNum : String
  routeName : String
  provider : String
  lat : ℚ
  lon : ℚ
  velocity : ℚ
  heading : String
  origName : String
  destName : String
  trainState : String
deriving DecidableEq, Repr

/-- A train annotated by `processTrains`: `{...train, distance, bearing,
bearingArrow}` plus the motion fields the nearby loop assigns (fields the JS
leaves `undefined` until then start as `false` / `none`). -/
structure ATrain extends Train where
  distance : ℚ
  bearing : String
  bearingArrow : String
  approaching : Bool := false
  receding : Bool := false
  closestApproach : Option ℚ := none
deriving DecidableEq, Repr

namespace Tracker

/-- `Tracker.session` (js/tracker.js 18-25): `closestDistance` starts at
`Infinity`, modelled as `⊤` in `WithTop ℚ`; `startTime` is the `Date.now()`
of the reset. -/
structure Session where
  spotted : Nat
  closestDistance : WithTop ℚ
  closestTrain : Option ATrain
  totalSpeed : ℚ
  speedCount : Nat
  startTime : Nat
deriving DecidableEq

/-- The tracker's mutable state, together with the two external pieces it
reads and writes through `Storage`: the spotting history (`nt_history`) and
the active location's name (`Storage.getActiveLocation()`, `none` when
unset).  The station list of `processStations` plays no part in the claims
and is omitted. -/
structure State where
  previousTrains : List (String × ℚ)
  session : Session
  currentTrains : List ATrain
  nearbyTrains : List ATrain
  closestTrain : Option ATrain
  history : List HistEntry
  activeLocation : Option String
deriving DecidableEq

/-- `Map.prototype.get` on the Previous-Distance Table. -/
def mapGet (m : List (String × ℚ)) (k : String) : Option ℚ :=
  (m.find? fun p => p.1 == k).map Prod.snd

/-- `Map.prototype.set`: overwrite the existing binding in place, or append
a new one. -/
def mapSet (m : List (String × ℚ)) (k : String) (v : ℚ) : List (String × ℚ) :=
  if m.any fun p => p.1 == k then m.map fun p => if p.1 == k then (k, v) else p
  else m ++ [(k, v)]

/-- `Tracker.resetSession()` (js/tracker.js 194-208); this also describes the
state at tracker start. -/
def resetSession (now : Nat) (st : State) : State :=
  { st with
    session :=
      { spotted := 0, closestDistance := ⊤, closestTrain := none,
        totalSpeed := 0, speedCount := 0, startTime := now }
    previousTrains := []
    currentTrains := []
    nearbyTrains := []
    closestTrain := none }

/-- `Tracker.logSpotting(train)` (js/tracker.js 110-139): build the spotting
projection (the `||` fallbacks replace falsy values — empty strings, and `0`
for `velocity`, on which `|| 0` is the identity), append it through the
Storage gateway, and increment `session.spotted` if the returned flag is
truthy.  Since `Storage.addSpotting` returns `undefined` (`none`), the
increment branch is unreachable. -/
def logSpotting (dayOf : Nat → Nat) (now : Nat) (st : State) (train : ATrain) :
    State :=
  let locationName :=
    match st.activeLocation with
    | some name => name
    | none => "Unknown"
  let spottingData : Spotting :=
    { trainID := train.trainID
      trainNum := train.trainNum
      routeName := if train.routeName = "" then "Unknown Route" else train.routeName
      provider := if train.provider = "" then "Amtrak" else train.provider
      distance := train.distance
      lat := train.lat
      lon := train.lon
      velocity := train.velocity
      heading := train.heading
      bearing := train.bearing
      origName := train.origName
      destName := train.destName
      trainState := if train.trainState = "" then "Active" else train.trainState
      locationName := locationName }
  let res := Storage.addSpotting dayOf now st.history spottingData
  let st1 := { st with history := res.1 }
  match res.2 with
  | some true =>
    { st1 with session := { st1.session with spotted := st1.session.spotted + 1 } }
  | _ => st1

/-- `{...train, distance, bearing, bearingArrow}` for one incoming record
(js/tracker.js 37-44). -/
def annotate (geo : Geo) (userLat userLon : ℚ) (t : Train) : ATrain :=
  { toTrain := t
    distance := geo.haversineDistance userLat userLon t.lat t.lon
    bearing := geo.getBearing userLat userLon t.lat t.lon
    bearingArrow := geo.getBearingArrow (geo.getBearing userLat userLon t.lat t.lon) }

/-- Stable ascending insertion by `distance`; `sortByDistance` models the
stable JS `sort((a, b) => a.distance - b.distance)`. -/
def insertByDistance (a : ATrain) : List ATrain → List ATrain
  | [] => [a]
  | b :: bs =>
    if b.distance ≤ a.distance then b :: insertByDistance a bs else a :: b :: bs

/-- Stable sort of a poll's records by ascending distance. -/
def sortByDistance (l : List ATrain) : List ATrain :=
  l.foldr insertByDistance []

/-- The filtered, distance-sorted nearby list of one poll
(js/tracker.js 47-49). -/
def nearbyOf (geo : Geo) (trains : List Train) (userLat userLon radius : ℚ) :
    List ATrain :=
  sortByDistance
    ((trains.map (annotate geo userLat userLon)).filter fun t => t.distance ≤ radius)

/-- The classification step of the nearby loop (js/tracker.js 52-64): look
the id up in the Previous-Distance Table; only a strictly smaller current
distance sets `approaching`, only a strictly greater one sets `receding`,
and the latter also records the previous distance as `closestApproach`. -/
def classify (prev : List (String × ℚ)) (train : ATrain) : ATrain :=
  match mapGet prev train.trainID with
  | none => { train with approaching := false, receding := false }
  | some p =>
    { train with
      approaching := decide (train.distance < p)
      receding := decide (p < train.distance)
      closestApproach :=
        if p < train.distance then some p else train.closestApproach }

/-- One iteration of `nearby.forEach(...)`: classify the record against the
Previous-Distance Table (unchanged during the loop), then log the spotting. -/
def nearbyStep (dayOf : Nat → Nat) (now : Nat) (acc : State × List ATrain)
    (train : ATrain) : State × List ATrain :=
  let t := classify acc.1.previousTrains train
  (logSpotting dayOf now acc.1 t, acc.2 ++ [t])

/-- The speed accumulation of js/tracker.js 87-92 (`t.velocity && t.velocity
> 0`, which for a rational is just strict positivity). -/
def speedStep (s : Session) (t : ATrain) : Session :=
  if 0 < t.velocity then
    { s with totalSpeed := s.totalSpeed + t.velocity, speedCount := s.speedCount + 1 }
  else s

/-- The result object of `processTrains` (the `stats` of `getStats()`, which
only re-queries storage and the fields below, is not separately modelled). -/
structure Output where
  all : List ATrain
  nearby : List ATrain
  closest : Option ATrain
deriving DecidableEq

/-- `Tracker.processTrains(trains, userLat, userLon, radius)`
(js/tracker.js 35-105): annotate all records with distance and bearing,
filter and sort the nearby ones, classify and log each of them, replace the
Previous-Distance Table wholesale from the full batch, and update the
session aggregate (closest seen so far on strict improvement only, then the
positive-speed stats). -/
def processTrains (geo : Geo) (dayOf : Nat → Nat) (now : Nat) (st : State)
    (trains : List Train) (userLat userLon radius : ℚ) : State × Output :=
  let trainsWithDistance := trains.map (annotate geo userLat userLon)
  let nearby0 := nearbyOf geo trains userLat userLon radius
  let folded := nearby0.foldl (nearbyStep dayOf now) (st, [])
  let st1 := folded.1
  let nearby := folded.2
  let newPrev := trainsWithDistance.foldl (fun m t => mapSet m t.trainID t.distance) []
  let closest := nearby.head?
  let session := st1.session
  let session :=
    match closest with
    | some c =>
      if (c.distance : WithTop ℚ) < session.closestDistance then
        { session with
          closestDistance := (c.distance : WithTop ℚ)
          closestTrain := some c }
      else session
    | none => session
  let session := nearby.foldl speedStep session
  let st2 :=
    { st1 with
      previousTrains := newPrev
      session := session
      currentTrains := trainsWithDistance
      nearbyTrains := nearby
      closestTrain := closest }
  (st2, { all := trainsWithDistance, nearby := nearby, closest := closest })

/-- The distance at sort-position 0 of the filtered output of one poll
(`nearby[0].distance`), when the poll has a nearby record at all. -/
def closestDist (geo : Geo) (trains : List Train) (userLat userLon radius : ℚ) :
    Option ℚ :=
  (nearbyOf geo trains userLat userLon radius).head?.map (·.distance)

/-- A sequence of poll cycles. -/
def runPolls (geo : Geo) (dayOf : Nat → Nat) (now : Nat)
    (userLat userLon radius : ℚ) (st : State) (batches : List (List Train)) :
    State :=
  batches.foldl (fun s b => (processTrains geo dayOf now s b userLat userLon radius).1) st

end Tracker

/-- A concrete annotated train for exercising the spotting path (velocity 0,
so no speed statistics arithmetic is involved). -/
def exampleTrain : ATrain :=
  { trainID := "amtrak-1", trainNum := "1", routeName := "", provider := "",
    lat := 1, lon := 2, velocity := 0, heading := "", origName := "",
    destName := "", trainState := "", distance := 5, bearing := "N",
    bearingArrow := "" }

/-- A freshly reset tracker state with an empty history and no active
location. -/
def exampleState : Tracker.State :=
  { previousTrains := []
    session :=
      { spotted := 0, closestDistance := ⊤, closestTrain := none,
        totalSpeed := 0, speedCount := 0, startTime := 0 }
    currentTrains := []
    nearbyTrains := []
    closestTrain := none
    history := []
    activeLocation := none }

/-- A concrete history entry (an old spotting of train id "old-1"). -/
def exampleEntry : HistEntry :=
  { trainID := "old-1", trainNum := "9", routeName := "R", provider := "Amtrak",
    origName := "", destName := "", locationName := "Home", closestDistance := 3,
    closestTime := 0, speed := 0, heading := "N", firstSeen := 0, lastSeen := 0,
    sightings := 1 }

/-- A concrete spotting of a different train id, same day and location. -/
def exampleSpotting : Spotting :=
  { trainID := "new-1", trainNum := "2", routeName := "R", provider := "Amtrak",
    distance := 4, lat := 1, lon := 2, velocity := 0, heading := "N",
    bearing := "N", origName := "", destName := "", trainState := "Active",
    locationName := "Home" }

/-- A geometry whose "distance" is simply the record's latitude (handy for
concrete instantiations). -/
def exampleGeo : Geo :=
  { haversineDistance := fun _ _ la _ => la
    getBearing := fun _ _ _ _ => "N"
    getBearingArrow := fun _ => "" }

/-- A train with id "T" at "latitude" `la` (with `exampleGeo`, its distance). -/
def trainAt (la : ℚ) : Train :=
  { trainID := "T", trainNum := "", routeName := "", provider := "", lat := la,
    lon := 0, velocity := 0, heading := "", origName := "", destName := "",
    trainState := "" }

namespace MTAClient

/-- Shifting distributes over bitwise or. -/
theorem lor_shiftLeft_distrib (a b n : Nat) :
    (a ||| b) <<< n = (a <<< n) ||| (b <<< n) := by
  apply Nat.eq_of_testBit_eq
  intro i
  simp [Nat.testBit_shiftLeft, Nat.testBit_lor, Bool.and_or_distrib_left]

/-- Splitting a number into its low seven bits and the rest. -/
theorem mod_lor_div_shiftLeft (v : Nat) : v % 128 ||| (v / 128) <<< 7 = v := by
  apply Nat.eq_of_testBit_eq
  intro i
  have h128 : (128 : Nat) = 2 ^ 7 := by norm_num
  rw [h128, ← Nat.shiftRight_eq_div_pow]
  simp only [Nat.testBit_lor, Nat.testBit_mod_two_pow, Nat.testBit_shiftLeft]
  by_cases h : i < 7
  · simp [h, Nat.not_le.mpr h]
  · have h7 : 7 ≤ i := Nat.not_lt.mp h
    simp [h, h7, Nat.testBit_shiftRight, Nat.add_sub_cancel' h7]

/-- The fuel argument of `encodeVarintGo` is irrelevant once it dominates the
value being encoded. -/
theorem encodeVarintGo_irrel :
    ∀ f1 f2 v, v ≤ f1 → v ≤ f2 → encodeVarintGo f1 v = encodeVarintGo f2 v := by
  intro f1
  induction f1 with
  | zero =>
    intro f2 v h1 _
    interval_cases v
    cases f2 <;> simp [encodeVarintGo]
  | succ f1 ih =>
    intro f2 v h1 h2
    cases f2 with
    | zero =>
      interval_cases v
      simp [encodeVarintGo]
    | succ f2 =>
      simp only [encodeVarintGo]
      by_cases hv : v < 128
      · simp [hv]
      · have hd : v / 128 < v := Nat.div_lt_self (by omega) (by omega)
        simp only [hv, if_false]
        rw [ih f2 (v / 128) (by omega) (by omega)]

/-- `encodeVarint` satisfies the recursion it was written with. -/
theorem encodeVarint_unfold (v : Nat) :
    encodeVarint v =
      if v < 128 then [v] else (v % 128 + 128) :: encodeVarint (v / 128) := by
  by_cases hv : v < 128
  · cases v with
    | zero => simp [encodeVarint, encodeVarintGo, hv]
    | succ n => simp [encodeVarint, encodeVarintGo, hv]
  · have h1 : 1 ≤ v := by omega
    obtain ⟨f, hf⟩ : ∃ f, v = f + 1 := ⟨v - 1, by omega⟩
    have hd : v / 128 < v := Nat.div_lt_self (by omega) (by omega)
    subst hf
    simp only [encodeVarint, encodeVarintGo, hv, if_false]
    rw [encodeVarintGo_irrel f ((f + 1) / 128) ((f + 1) / 128) (by omega) (by omega)]

/-- Reading the byte a `drop` exposes. -/
theorem getUint8_of_drop {dv : List Nat} {offset : Nat} {a : Nat} {l : List Nat}
    (h : dv.drop offset = a :: l) : getUint8 dv offset = a % 256 := by
  have : dv[offset]? = some a := by
    have := List.getElem?_drop dv offset 0
    rw [h] at this
    simpa using this.symm
  simp [getUint8, List.getD_eq_getElem?_getD, this]

/-- The decode loop inverts the varint encoding: if the bytes at `offset` start
with the encoding of `v`, already `k` groups were consumed, and `v` fits the
remaining 32-bit budget, the loop returns the accumulated value with `v`'s bits
or-ed in at position `7 * k`. -/
theorem readVarintGo_encode (v : Nat) :
    ∀ (k result bytesRead offset fuel : Nat) (dv rest : List Nat),
      dv.drop offset = encodeVarint v ++ rest →
      k ≤ 4 → v < 2 ^ (32 - 7 * k) →
      dv.length - offset ≤ fuel →
      readVarintGo dv fuel offset result (7 * k) bytesRead =
        Except.ok (result ||| v <<< (7 * k), bytesRead + (encodeVarint v).length) := by
  induction v using Nat.strong_induction_on with
  | _ v ih =>
    intro k result bytesRead offset fuel dv rest hdrop hk hv hfuel
    rw [encodeVarint_unfold] at hdrop ⊢
    by_cases hsmall : v < 128
    · -- terminating byte
      simp only [hsmall, if_true] at hdrop ⊢
      have hoff : offset < dv.length := by
        by_contra hge
        rw [List.drop_eq_nil_of_le (Nat.not_lt.mp hge)] at hdrop
        exact List.noConfusion hdrop
      obtain ⟨f, hf⟩ : ∃ f, fuel = f + 1 := ⟨fuel - 1, by omega⟩
      subst hf
      have hb := getUint8_of_drop hdrop
      have hb' : getUint8 dv offset = v := by rw [hb]; omega
      have hsh : 7 * k % 32 = 7 * k := Nat.mod_eq_of_lt (by omega)
      have hlt : v <<< (7 * k) < 2 ^ 32 := by
        rw [Nat.shiftLeft_eq]
        calc v * 2 ^ (7 * k) < 2 ^ (32 - 7 * k) * 2 ^ (7 * k) :=
              (Nat.mul_lt_mul_right (Nat.pos_pow_of_pos _ (by omega))).mpr hv
          _ = 2 ^ 32 := by rw [← Nat.pow_add]; congr 1; omega
      simp only [readVarintGo, hoff, if_true, hb', hsmall, if_true, hsh,
        Nat.mod_eq_of_lt (by omega : v % 128 < 128), Nat.mod_eq_of_lt hsmall,
        Nat.mod_eq_of_lt hlt, List.length_cons, List.length_nil]
    · -- continuation byte
      simp only [hsmall, if_false] at hdrop ⊢
      have hoff : offset < dv.length := by
        by_contra hge
        rw [List.drop_eq_nil_of_le (Nat.not_lt.mp hge)] at hdrop
        exact List.noConfusion hdrop
      obtain ⟨f, hf⟩ : ∃ f, fuel = f + 1 := ⟨fuel - 1, by omega⟩
      subst hf
      have hk3 : k ≤ 3 := by
        by_contra hk4
        have : k = 4 := by omega
        subst this
        simp only [show 32 - 7 * 4 = 4 by norm_num] at hv
        omega
      have hb := getUint8_of_drop hdrop
      have hb' : getUint8 dv offset = v % 128 + 128 := by rw [hb]; omega
      have hsh : 7 * k % 32 = 7 * k := Nat.mod_eq_of_lt (by omega)
      have hcontrib : (v % 128) <<< (7 * k) < 2 ^ 32 := by
        rw [Nat.shiftLeft_eq]
        calc (v % 128) * 2 ^ (7 * k) < 128 * 2 ^ (7 * k) :=
              (Nat.mul_lt_mul_right (Nat.pos_pow_of_pos _ (by omega))).mpr (by omega)
          _ ≤ 128 * 2 ^ 21 :=
              Nat.mul_le_mul_left _ (Nat.pow_le_pow_right (by omega) (by omega))
          _ < 2 ^ 32 := by norm_num
      have hdrop' : dv.drop (offset + 1) = encodeVarint (v / 128) ++ rest := by
        rw [← List.tail_drop, hdrop]
        rfl
      have hrec := ih (v / 128) (Nat.div_lt_self (by omega) (by omega)) (k + 1)
        (result ||| (v % 128) <<< (7 * k)) (bytesRead + 1) (offset + 1) f dv rest
        hdrop' (by omega)
        (by
          have hexp : 32 - 7 * (k + 1) = 32 - 7 * k - 7 := by omega
          have h2 : (2 : Nat) ^ (32 - 7 * k) = 128 * 2 ^ (32 - 7 * k - 7) := by
            rw [show (128 : Nat) = 2 ^ 7 by norm_num, ← Nat.pow_add]
            congr 1
            omega
          rw [hexp]
          exact Nat.div_lt_of_lt_mul (h2 ▸ hv))
        (by omega)
      simp only [readVarintGo, hoff, if_true, hb',
        show ¬(v % 128 + 128 < 128) by omega, if_false,
        show ¬(7 * k + 7 > 35) by omega, if_false, hsh]
      rw [show (v % 128 + 128) % 128 = v % 128 by omega,
        Nat.mod_eq_of_lt hcontrib, show 7 * k + 7 = 7 * (k + 1) by ring, hrec]
      congr 2
      · rw [Nat.lor_assoc]
        congr 1
        rw [show 7 * (k + 1) = 7 + 7 * k by ring, Nat.shiftLeft_add (v / 128) 7 (7 * k),
          ← lor_shiftLeft_distrib]
        rw [mod_lor_div_shiftLeft]
      · simp only [List.length_cons]
        omega

/-- If every byte from `offset` to the end of the buffer has its high bit set
and at most five groups (continuations) remain, the loop consumes the whole
rest of the buffer and falls through to the partial-result return. -/
theorem readVarintGo_truncated :
    ∀ (k j : Nat) (dv : List Nat) (offset result bytesRead fuel : Nat),
      dv.length - offset = k → k ≤ fuel → j + k ≤ 5 →
      (∀ i, i < k → 128 ≤ getUint8 dv (offset + i)) →
      ∃ v, readVarintGo dv fuel offset result (7 * j) bytesRead =
        Except.ok (v, bytesRead + k) := by
  intro k
  induction k with
  | zero =>
    intro j dv offset result bytesRead fuel hlen _ _ _
    have hoff : ¬ offset < dv.length := by omega
    cases fuel with
    | zero => exact ⟨result, rfl⟩
    | succ f => exact ⟨result, by simp [readVarintGo, hoff]⟩
  | succ k ih =>
    intro j dv offset result bytesRead fuel hlen hfuel hj hcont
    have hoff : offset < dv.length := by omega
    obtain ⟨f, hf⟩ : ∃ f, fuel = f + 1 := ⟨fuel - 1, by omega⟩
    subst hf
    have hb : 128 ≤ getUint8 dv offset := by
      have := hcont 0 (by omega)
      simpa using this
    obtain ⟨v, hv⟩ := ih (j + 1) dv (offset + 1)
      (result ||| (((getUint8 dv offset % 128) <<< (7 * j % 32)) % 2 ^ 32))
      (bytesRead + 1) f (by omega) (by omega) (by omega)
      (fun i hi => by
        have := hcont (i + 1) (by omega)
        rwa [show offset + (i + 1) = offset + 1 + i by omega] at this)
    rw [show bytesRead + 1 + k = bytesRead + (k + 1) by omega] at hv
    refine ⟨v, ?_⟩
    simp only [readVarintGo, hoff, if_true, show ¬ getUint8 dv offset < 128 by omega,
      if_false, show 7 * j + 7 = 7 * (j + 1) by ring,
      show ¬ 7 * (j + 1) > 35 by omega, if_false, hv]

/-- The loop never reads past the end of the buffer: the number of bytes it
reports consuming is bounded by the bytes available from `offset`. -/
theorem readVarintGo_bytesRead_le :
    ∀ (fuel : Nat) (dv : List Nat) (offset result shift bytesRead v n : Nat),
      readVarintGo dv fuel offset result shift bytesRead = Except.ok (v, n) →
      n - bytesRead ≤ dv.length - offset := by
  intro fuel
  induction fuel with
  | zero =>
    intro dv offset result shift bytesRead v n h
    simp only [readVarintGo, Except.ok.injEq, Prod.mk.injEq] at h
    omega
  | succ f ih =>
    intro dv offset result shift bytesRead v n h
    by_cases hoff : offset < dv.length
    · simp only [readVarintGo, hoff, if_true] at h
      by_cases hb : getUint8 dv offset < 128
      · simp only [hb, if_true, Except.ok.injEq, Prod.mk.injEq] at h
        omega
      · simp only [hb, if_false] at h
        by_cases hsh : shift + 7 > 35
        · simp only [hsh, if_true] at h
          exact absurd h (by simp)
        · simp only [hsh, if_false] at h
          have := ih dv (offset + 1) _ _ (bytesRead + 1) v n h
          omega
    · simp only [readVarintGo, hoff, if_false, Except.ok.injEq, Prod.mk.injEq] at h
      omega

/-- If six successive bytes from `offset` all have their high bit set, the
loop consumes six continuation groups and throws `Varint too long` (after the
sixth continuation the shift reaches 42 > 35). -/
theorem readVarintGo_toolong :
    ∀ (k j : Nat) (dv : List Nat) (offset result bytesRead fuel : Nat),
      j + k = 6 → 1 ≤ k → offset + k ≤ dv.length → dv.length - offset ≤ fuel →
      (∀ i, i < k → 128 ≤ getUint8 dv (offset + i)) →
      readVarintGo dv fuel offset result (7 * j) bytesRead =
        Except.error "Varint too long" := by
  intro k
  induction k with
  | zero => omega
  | succ k ih =>
    intro j dv offset result bytesRead fuel hj hk hoffk hfuel hcont
    have hoff : offset < dv.length := by omega
    obtain ⟨f, hf⟩ : ∃ f, fuel = f + 1 := ⟨fuel - 1, by omega⟩
    subst hf
    have hb : 128 ≤ getUint8 dv offset := by
      have := hcont 0 (by omega)
      simpa using this
    cases k with
    | zero =>
      have hj5 : j = 5 := by omega
      subst hj5
      simp [readVarintGo, hoff, show ¬ getUint8 dv offset < 128 by omega]
    | succ k =>
      have hrec := ih (j + 1) dv (offset + 1) (result ||| (((getUint8 dv offset % 128) <<< (7 * j % 32)) % 2 ^ 32)) (bytesRead + 1) f (by omega) (by omega) (by omega)
        (by omega)
        (fun i hi => by
          have := hcont (i + 1) (by omega)
          rwa [show offset + (i + 1) = offset + 1 + i by omega] at this)
      simp only [readVarintGo, hoff, if_true, show ¬ getUint8 dv offset < 128 by omega,
        if_false, show 7 * j + 7 = 7 * (j + 1) by ring,
        show ¬ 7 * (j + 1) > 35 by omega, if_false, hrec]

/-- A varint whose terminating byte (high bit clear) arrives after at most
five continuation bytes decodes successfully, consuming exactly the bytes up
to and including the terminator. -/
theorem readVarintGo_terminated :
    ∀ (k j : Nat) (dv : List Nat) (offset result bytesRead fuel : Nat),
      j + k ≤ 5 → (∀ i, i < k → 128 ≤ getUint8 dv (offset + i)) →
      offset + k < dv.length → getUint8 dv (offset + k) < 128 →
      dv.length - offset ≤ fuel →
      ∃ v, readVarintGo dv fuel offset result (7 * j) bytesRead =
        Except.ok (v, bytesRead + k + 1) := by
  intro k
  induction k with
  | zero =>
    intro j dv offset result bytesRead fuel _ _ hoffk hterm hfuel
    have hoff : offset < dv.length := by omega
    obtain ⟨f, hf⟩ : ∃ f, fuel = f + 1 := ⟨fuel - 1, by omega⟩
    subst hf
    have hterm' : getUint8 dv offset < 128 := by simpa using hterm
    exact ⟨result ||| (((getUint8 dv offset % 128) <<< (7 * j % 32)) % 2 ^ 32),
      by simp [readVarintGo, hoff, hterm']⟩
  | succ k ih =>
    intro j dv offset result bytesRead fuel hj hcont hoffk hterm hfuel
    have hoff : offset < dv.length := by omega
    obtain ⟨f, hf⟩ : ∃ f, fuel = f + 1 := ⟨fuel - 1, by omega⟩
    subst hf
    have hb : 128 ≤ getUint8 dv offset := by
      have := hcont 0 (by omega)
      simpa using this
    obtain ⟨v, hv⟩ := ih (j + 1) dv (offset + 1)
      (result ||| (((getUint8 dv offset % 128) <<< (7 * j % 32)) % 2 ^ 32))
      (bytesRead + 1) f (by omega)
      (fun i hi => by
        have := hcont (i + 1) (by omega)
        rwa [show offset + (i + 1) = offset + 1 + i by omega] at this)
      (by omega)
      (by rwa [show offset + 1 + k = offset + (k + 1) by omega])
      (by omega)
    rw [show bytesRead + 1 + k + 1 = bytesRead + (k + 1) + 1 by omega] at hv
    refine ⟨v, ?_⟩
    simp only [readVarintGo, hoff, if_true, show ¬ getUint8 dv offset < 128 by omega,
      if_false, show 7 * j + 7 = 7 * (j + 1) by ring,
      show ¬ 7 * (j + 1) > 35 by omega, if_false, hv]

/-- Claim C2 (amended): on a truncated varint (every remaining byte has its
high bit set, at most five of them) `readVarint` does not fail: it silently
returns the partially-accumulated value, with `bytesRead` equal to the number
of bytes that were actually available; and in general a successful read never
consumes more bytes than the buffer holds past `offset` (no out-of-bounds
read).  The source throws no `TruncatedVarint` error: the `while` loop falls
through when the buffer ends. -/
theorem C2_truncation_amended :
    (∀ (dv : List Nat) (offset : Nat),
        dv.length - offset ≤ 5 →
        (∀ i, offset + i < dv.length → 128 ≤ getUint8 dv (offset + i)) →
        ∃ v, readVarint dv offset = Except.ok (v, dv.length - offset))
    ∧ (∀ (dv : List Nat) (offset v n : Nat),
        readVarint dv offset = Except.ok (v, n) → n ≤ dv.length - offset) := by
  constructor
  · intro dv offset hlen hcont
    obtain ⟨v, hv⟩ := readVarintGo_truncated (dv.length - offset) 0 dv offset 0 0
      dv.length rfl (by omega) (by omega) (fun i hi => hcont i (by omega))
    exact ⟨v, by simpa [readVarint] using hv⟩
  · intro dv offset v n h
    have := readVarintGo_bytesRead_le dv.length dv offset 0 0 0 v n h
    omega

/-- Witness for C2 (amended): a two-byte buffer of continuation bytes decodes
without error, consuming both bytes. -/
theorem C2_truncation_amended_witness :
    ∃ v, readVarint [0x80, 0x80] 0 = Except.ok (v, 2) := by
  have := C2_truncation_amended.1 [0x80, 0x80] 0 (by decide)
    (fun i hi => by
      have hi' : i < 2 := by simpa using hi
      interval_cases i <;> decide)
  simpa using this

/-- Counterexample for C2 as stated: the one-byte buffer `[0x80]` is cut off
mid-varint (high bit set on its final byte), yet `readVarint` returns a value
(`0`, one byte consumed) instead of failing with `TruncatedVarint`. -/
theorem C2_truncation_counterexample :
    readVarint [0x80] 0 = Except.ok (0, 1) := by decide

/-- Claim C5 (amended): `Varint too long` is thrown exactly when a seventh
byte would be needed: six successive high-bit bytes raise the error, while
any varint whose terminator arrives within the first six bytes (in particular
any well-terminated varint of at most five bytes) succeeds. -/
theorem C5_toolong_amended :
    (∀ (dv : List Nat) (offset : Nat),
        offset + 6 ≤ dv.length →
        (∀ i, i < 6 → 128 ≤ getUint8 dv (offset + i)) →
        readVarint dv offset = Except.error "Varint too long")
    ∧ (∀ (dv : List Nat) (offset k : Nat),
        k ≤ 5 → (∀ i, i < k → 128 ≤ getUint8 dv (offset + i)) →
        offset + k < dv.length → getUint8 dv (offset + k) < 128 →
        ∃ v, readVarint dv offset = Except.ok (v, k + 1)) := by
  constructor
  · intro dv offset hlen hcont
    exact readVarintGo_toolong 6 0 dv offset 0 0 dv.length (by omega) (by omega)
      (by omega) (by omega) hcont
  · intro dv offset k hk hcont hoffk hterm
    obtain ⟨v, hv⟩ := readVarintGo_terminated k 0 dv offset 0 0 dv.length (by omega)
      hcont hoffk hterm (by omega)
    exact ⟨v, by simpa [readVarint] using hv⟩

/-- Witness for C5 (amended): six continuation bytes raise the error, and a
two-byte well-terminated varint succeeds. -/
theorem C5_toolong_amended_witness :
    readVarint [0x80, 0x80, 0x80, 0x80, 0x80, 0x80] 0 =
      Except.error "Varint too long" ∧
    ∃ v, readVarint [0x96, 0x01] 0 = Except.ok (v, 2) := by
  constructor
  · exact C5_toolong_amended.1 [0x80, 0x80, 0x80, 0x80, 0x80, 0x80] 0 (by decide)
      (fun i hi => by interval_cases i <;> decide)
  · have := C5_toolong_amended.2 [0x96, 0x01] 0 1 (by decide)
      (fun i hi => by
        have hi' : i = 0 := by omega
        subst hi'
        decide) (by decide) (by decide)
    simpa using this

/-- Counterexample for C5 as stated: a six-byte varint — six groups of seven
bits, more than five — decodes successfully (to 8, because the sixth group is
shifted by 35 mod 32 = 3 bits) instead of failing with `VarintTooLong`. -/
theorem C5_toolong_counterexample :
    readVarint [0x80, 0x80, 0x80, 0x80, 0x80, 0x01] 0 = Except.ok (8, 6) := by
  decide

/-- Claim C4 (amended): the varint round-trip identity holds for every value
below `2 ^ 32`: decoding the encoding of `v` yields `v` together with the
number of bytes of the encoding.  (Values in `[2 ^ 32, 2 ^ 35)` wrap modulo
`2 ^ 32` because JavaScript `<<`/`|` truncate to 32 bits; see the
counterexample at `2 ^ 32`.) -/
theorem C4_varint_round_trip (v : Nat) (hv : v < 2 ^ 32) :
    readVarint (encodeVarint v) 0 = Except.ok (v, (encodeVarint v).length) := by
  have := readVarintGo_encode v 0 0 0 0 (encodeVarint v).length (encodeVarint v) []
    (by simp) (by omega) (by simpa using hv) (by omega)
  simpa [readVarint] using this

/-- Witness for C4: the round-trip theorem applied at the concrete value 300. -/
theorem C4_varint_round_trip_witness :
    readVarint (encodeVarint 300) 0 = Except.ok (300, (encodeVarint 300).length) :=
  C4_varint_round_trip 300 (by norm_num)

/-- Counterexample for C4 as stated: `2 ^ 32 < 2 ^ 35` is encodable in five
7-bit groups, but decoding its encoding returns 0 (the value modulo `2 ^ 32`),
not the original value. -/
theorem C4_varint_round_trip_counterexample :
    readVarint (encodeVarint (2 ^ 32)) 0 = Except.ok (0, 5) ∧ (0 : Nat) ≠ 2 ^ 32 := by
  constructor
  · decide
  · norm_num

set_option maxRecDepth 40000 in
/-- Claim C8: the decoder resolves the position sub-message trying the
standard field number 3 first and the vendor-specific field number 2 only if
3 is absent: an entity carrying the position only at the alternate field
decodes to the same latitude/longitude as the otherwise-identical entity
using the standard field, and when both are present the standard one wins. -/
theorem C8_position_field_fallback :
    (parseFeed feedAltBuffer).map (List.map fun v => (v.lat, v.lon)) =
      (parseFeed feedStdBuffer).map (List.map fun v => (v.lat, v.lon)) ∧
    (parseFeed feedStdBuffer).map (List.map fun v => (v.lat, v.lon)) =
      Except.ok [(some 64, some (-64))] ∧
    (parseFeed feedBothBuffer).map (List.map fun v => (v.lat, v.lon)) =
      Except.ok [(some 64, some (-64))] := by
  refine ⟨by decide, by decide, by decide⟩

/-- An entity record the loop actually emits passed the zero-coordinate
guard: its resolved latitude and longitude are not both `=== 0`. -/
theorem parseEntity_ok_some_no_zero {dv : List Nat} {ef : TField} {v : Vehicle}
    (h : parseEntity dv ef = Except.ok (some v)) :
    ¬(jsEqZero v.lat = true ∧ jsEqZero v.lon = true) := by
  unfold parseEntity at h
  repeat' split at h
  all_goals try simp only [] at h
  repeat' split at h
  all_goals simp at h
  all_goals subst h
  all_goals simp_all [Bool.and_eq_true]

/-- The entity loop preserves the zero-coordinate guarantee. -/
theorem parseFeedLoop_no_zero {dv : List Nat} :
    ∀ (efs : List TField) (acc vs : List Vehicle),
      (∀ v ∈ acc, ¬(jsEqZero v.lat = true ∧ jsEqZero v.lon = true)) →
      parseFeedLoop dv efs acc = Except.ok vs →
      ∀ v ∈ vs, ¬(jsEqZero v.lat = true ∧ jsEqZero v.lon = true) := by
  intro efs
  induction efs with
  | nil =>
    intro acc vs hacc h
    simp only [parseFeedLoop, Except.ok.injEq] at h
    subst h
    exact hacc
  | cons ef rest ih =>
    intro acc vs hacc h
    simp only [parseFeedLoop] at h
    split at h
    · exact absurd h (by simp)
    · exact ih acc vs hacc h
    · rename_i w hw
      refine ih (acc ++ [w]) vs ?_ h
      intro v hv
      rcases List.mem_append.mp hv with hv | hv
      · exact hacc v hv
      · have : v = w := by simpa using hv
        subst this
        exact parseEntity_ok_some_no_zero hw

set_option maxRecDepth 40000 in
/-- Claim C9: no entity whose resolved latitude and longitude are both
exactly zero ever appears in the decoder's output, for every input buffer;
and an entity with exactly one zero coordinate is not dropped by this rule
(the synthetic buffer with latitude 0, longitude 64 decodes to one record). -/
theorem C9_zero_coordinate_filter :
    (∀ (dv : List Nat) (vs : List Vehicle), parseFeed dv = Except.ok vs →
        ∀ v ∈ vs, ¬(jsEqZero v.lat = true ∧ jsEqZero v.lon = true)) ∧
    (parseFeed feedOneZeroBuffer).map (List.map fun v => (v.lat, v.lon)) =
      Except.ok [(some 0, some 64)] := by
  constructor
  · intro dv vs h v hv
    unfold parseFeed at h
    split at h
    · exact absurd h (by simp)
    · exact parseFeedLoop_no_zero _ [] vs (by simp) h v hv
  · decide

set_option maxRecDepth 40000 in
/-- Witness for C9: the universal part applied to the concrete standard
buffer, whose single output record indeed has nonzero coordinates. -/
theorem C9_zero_coordinate_filter_witness :
    ∀ v ∈ [({ entityId := [101, 49], lat := some 64, lon := some (-64),
              bearing := none, speedMph := some 0, tripId := [], routeId := [],
              vehicleId := [], vehicleLabel := [], stopId := [],
              currentStatus := FVal.vint 2, timestamp := FVal.vint 0 } : Vehicle)],
      ¬(jsEqZero v.lat = true ∧ jsEqZero v.lon = true) :=
  C9_zero_coordinate_filter.1 feedStdBuffer _ (by decide)

end MTAClient

/-- Claim C1 (code bug): `Storage.addSpotting` has no `return` statement, so
every call returns `undefined` (never the was-new-today boolean), and the
`if (added)` in `Tracker.logSpotting` never fires: `session.spotted` is
never incremented — not even on a first sighting of a key, demonstrated at a
concrete first-time spotting that does append a history entry. -/
theorem C1_spotted_never_incremented :
    (∀ (dayOf : Nat → Nat) (now : Nat) (history : List HistEntry)
        (train : Spotting), (Storage.addSpotting dayOf now history train).2 = none) ∧
    (∀ (dayOf : Nat → Nat) (now : Nat) (st : Tracker.State) (train : ATrain),
        (Tracker.logSpotting dayOf now st train).session.spotted =
          st.session.spotted) ∧
    (exampleState.history = [] ∧
     (Tracker.logSpotting (fun t => t / 86400000) 0 exampleState
         exampleTrain).history.length = 1 ∧
     (Tracker.logSpotting (fun t => t / 86400000) 0 exampleState
         exampleTrain).session.spotted = 0) := by
  refine ⟨fun _ _ _ _ => rfl, fun _ _ _ _ => rfl, by decide, by decide, by decide⟩

/-- Claim C10: the stored spotting history never exceeds 500 entries: every
append operation trims to the 500 most recent entries (`history.slice(-500)`),
silently evicting the oldest; in particular an append of a new key against a
full 500-entry history drops the oldest entry, with no regard to day
boundaries. -/
theorem C10_history_capped :
    (∀ (dayOf : Nat → Nat) (now : Nat) (history : List HistEntry)
        (train : Spotting),
        ((Storage.addSpotting dayOf now history train).1).length ≤ 500) ∧
    (∀ (dayOf : Nat → Nat) (now : Nat) (history : List HistEntry)
        (train : Spotting),
        history.length = 500 →
        Storage.spotIndex dayOf now history train = none →
        (Storage.addSpotting dayOf now history train).1 =
          history.drop 1 ++ [Storage.newEntry now train]) := by
  constructor
  · intro dayOf now history train
    unfold Storage.addSpotting
    split
    · simp only [List.length_drop]
      omega
    · simp only [List.length_drop]
      omega
  · intro dayOf now history train h500 hnone
    simp only [Storage.addSpotting, hnone]
    rw [List.length_append, h500]
    simp only [List.length_singleton]
    rw [show 500 + 1 - 500 = 1 by omega,
      List.drop_append_of_le_length (by omega)]

set_option maxRecDepth 100000 in
/-- Witness for C10: appending a new train id to a full 500-entry history
evicts exactly the oldest entry. -/
theorem C10_history_capped_witness :
    (Storage.addSpotting (fun t => t / 86400000) 0
        (List.replicate 500 exampleEntry) exampleSpotting).1 =
      (List.replicate 500 exampleEntry).drop 1 ++
        [Storage.newEntry 0 exampleSpotting] :=
  C10_history_capped.2 _ _ _ _ (by simp) (by decide)

namespace Tracker

/-- Rewriting the bindings of one key leaves lookups of other keys alone. -/
theorem mapGet_map_set_other (ps : List (String × ℚ)) (k : String) (v : ℚ)
    (id : String) (h : ¬ k = id) :
    mapGet (ps.map fun p => if p.1 == k then (k, v) else p) id = mapGet ps id := by
  induction ps with
  | nil => rfl
  | cons p ps ih =>
    simp only [List.map_cons]
    by_cases hpk : p.1 = k
    · have hpid : ¬ p.1 = id := by rw [hpk]; exact h
      rw [show (if p.1 == k then (k, v) else p) = (k, v) by simp [hpk]]
      unfold mapGet at ih ⊢
      rw [List.find?_cons_of_neg _ (by simpa using h),
        List.find?_cons_of_neg _ (by simpa using hpid)]
      exact ih
    · rw [show (if p.1 == k then (k, v) else p) = p by simp [hpk]]
      by_cases hpid : p.1 = id
      · unfold mapGet
        rw [List.find?_cons_of_pos _ (by simpa using hpid),
          List.find?_cons_of_pos _ (by simpa using hpid)]
      · unfold mapGet at ih ⊢
        rw [List.find?_cons_of_neg _ (by simpa using hpid),
          List.find?_cons_of_neg _ (by simpa using hpid)]
        exact ih

/-- `Map.set` then `Map.get`: the set key returns the new value, every other
key is unaffected. -/
theorem mapGet_mapSet (m : List (String × ℚ)) (k : String) (v : ℚ) (id : String) :
    mapGet (mapSet m k v) id = if k = id then some v else mapGet m id := by
  induction m with
  | nil =>
    unfold mapSet mapGet
    simp only [List.any_nil, Bool.false_eq_true, if_false, List.nil_append]
    by_cases h : k = id
    · rw [List.find?_cons_of_pos _ (by simpa using h)]
      simp [h]
    · rw [List.find?_cons_of_neg _ (by simpa using h)]
      simp [h]
  | cons p ps ih =>
    unfold mapSet
    by_cases hpk : p.1 = k
    · rw [if_pos (by simp [List.any_cons, hpk])]
      simp only [List.map_cons]
      rw [show (if p.1 == k then (k, v) else p) = (k, v) by simp [hpk]]
      by_cases hkid : k = id
      · unfold mapGet
        rw [List.find?_cons_of_pos _ (by simpa using hkid)]
        simp [hkid]
      · have hpid : ¬ p.1 = id := by rw [hpk]; exact hkid
        unfold mapGet
        rw [List.find?_cons_of_neg _ (by simpa using hkid),
          List.find?_cons_of_neg _ (by simpa using hpid)]
        have h2 := mapGet_map_set_other ps k v id hkid
        unfold mapGet at h2
        rw [h2, if_neg hkid]
    · rw [show ((p :: ps).any fun q => q.1 == k) = (ps.any fun q => q.1 == k) by
        simp [List.any_cons, hpk]]
      by_cases hpsany : (ps.any fun q => q.1 == k) = true
      · rw [if_pos hpsany]
        simp only [List.map_cons]
        rw [show (if p.1 == k then (k, v) else p) = p by simp [hpk]]
        by_cases hpid : p.1 = id
        · have hkid : ¬ k = id := fun hk => hpk (by rw [hpid, hk])
          unfold mapGet
          rw [List.find?_cons_of_pos _ (by simpa using hpid),
            List.find?_cons_of_pos _ (by simpa using hpid), if_neg hkid]
        · have hps : mapSet ps k v = ps.map fun q => if q.1 == k then (k, v) else q := by
            simp [mapSet, hpsany]
          have h2 := ih
          rw [hps] at h2
          unfold mapGet at h2 ⊢
          rw [List.find?_cons_of_neg _ (by simpa using hpid),
            List.find?_cons_of_neg _ (by simpa using hpid)]
          exact h2
      · rw [if_neg hpsany]
        simp only [List.cons_append]
        by_cases hpid : p.1 = id
        · have hkid : ¬ k = id := fun hk => hpk (by rw [hpid, hk])
          unfold mapGet
          rw [List.find?_cons_of_pos _ (by simpa using hpid),
            List.find?_cons_of_pos _ (by simpa using hpid), if_neg hkid]
        · have hps : mapSet ps k v = ps ++ [(k, v)] := by
            simp only [mapSet]
            rw [if_neg hpsany]
          have h2 := ih
          rw [hps] at h2
          unfold mapGet at h2 ⊢
          rw [List.find?_cons_of_neg _ (by simpa using hpid),
            List.find?_cons_of_neg _ (by simpa using hpid)]
          exact h2

/-- Folding `Map.set` of `t.trainID ↦ f t` over a batch: the lookup returns
`f` of the last batch record bearing that id, falling back to the initial
map for absent ids. -/
theorem mapGet_setAll (f : Train → ℚ) :
    ∀ (l : List Train) (m : List (String × ℚ)) (id : String),
      mapGet (l.foldl (fun acc t => mapSet acc t.trainID (f t)) m) id =
        match l.reverse.find? (fun t => t.trainID == id) with
        | some t => some (f t)
        | none => mapGet m id := by
  intro l
  induction l with
  | nil => intro m id; rfl
  | cons t ts ih =>
    intro m id
    simp only [List.foldl_cons, List.reverse_cons]
    rcases hfind : ts.reverse.find? (fun u => u.trainID == id) with _ | u
    · rw [ih, List.find?_append, hfind]
      by_cases hid : t.trainID = id
      · rw [List.find?_cons_of_pos _ (by simpa using hid)]
        simp [mapGet_mapSet, hid]
      · rw [List.find?_cons_of_neg _ (by simpa using hid)]
        simp [mapGet_mapSet, hid]
    · rw [ih, List.find?_append, hfind]
      simp

end Tracker
namespace Tracker

@[simp] theorem annotate_trainID (geo : Geo) (u v : ℚ) (t : Train) :
    (annotate geo u v t).trainID = t.trainID := rfl

@[simp] theorem annotate_distance (geo : Geo) (u v : ℚ) (t : Train) :
    (annotate geo u v t).distance = geo.haversineDistance u v t.lat t.lon := rfl

@[simp] theorem annotate_approaching (geo : Geo) (u v : ℚ) (t : Train) :
    (annotate geo u v t).approaching = false := rfl

@[simp] theorem annotate_receding (geo : Geo) (u v : ℚ) (t : Train) :
    (annotate geo u v t).receding = false := rfl

@[simp] theorem annotate_closestApproach (geo : Geo) (u v : ℚ) (t : Train) :
    (annotate geo u v t).closestApproach = none := rfl

/-- Classification when the id was seen in the previous poll. -/
theorem classify_of_some {prev : List (String × ℚ)} {t : ATrain} {p : ℚ}
    (h : mapGet prev t.trainID = some p) :
    classify prev t =
      { t with
        approaching := decide (t.distance < p)
        receding := decide (p < t.distance)
        closestApproach := if p < t.distance then some p else t.closestApproach } := by
  unfold classify
  rw [h]

/-- Classification when the id is absent from the Previous-Distance Table. -/
theorem classify_of_none {prev : List (String × ℚ)} {t : ATrain}
    (h : mapGet prev t.trainID = none) :
    classify prev t = { t with approaching := false, receding := false } := by
  unfold classify
  rw [h]

@[simp] theorem classify_trainID (prev : List (String × ℚ)) (t : ATrain) :
    (classify prev t).trainID = t.trainID := by
  unfold classify
  cases mapGet prev t.trainID <;> rfl

@[simp] theorem classify_distance (prev : List (String × ℚ)) (t : ATrain) :
    (classify prev t).distance = t.distance := by
  unfold classify
  cases mapGet prev t.trainID <;> rfl

set_option maxRecDepth 8192 in
/-- `logSpotting` only touches the history (its `if (added)` branch is dead,
`Storage.addSpotting` returning `undefined`): the Previous-Distance Table and
the whole session are left as they were. -/
theorem logSpotting_state (dayOf : Nat → Nat) (now : Nat) (st : State)
    (train : ATrain) :
    (logSpotting dayOf now st train).previousTrains = st.previousTrains ∧
    (logSpotting dayOf now st train).session = st.session := ⟨rfl, rfl⟩

/-- The `nearby.forEach` fold: its list result is the classification of each
record against the (unchanged) Previous-Distance Table, and it leaves the
table and session fields used later untouched. -/
theorem nearbyFold (dayOf : Nat → Nat) (now : Nat) :
    ∀ (l : List ATrain) (st : State) (done : List ATrain),
      (l.foldl (nearbyStep dayOf now) (st, done)).2 =
        done ++ l.map (classify st.previousTrains) ∧
      ((l.foldl (nearbyStep dayOf now) (st, done)).1).session = st.session := by
  intro l
  induction l with
  | nil => intro st done; exact ⟨by simp, rfl⟩
  | cons t ts ih =>
    intro st done
    simp only [List.foldl_cons, nearbyStep]
    obtain ⟨h1, h2⟩ := ih (logSpotting dayOf now st (classify st.previousTrains t))
      (done ++ [classify st.previousTrains t])
    obtain ⟨hp, hs⟩ := logSpotting_state dayOf now st (classify st.previousTrains t)
    constructor
    · rw [h1, hp]
      simp
    · rw [h2, hs]

/-- The positive-speed accumulation leaves the closest-distance fields of the
session alone. -/
theorem speedFold_session :
    ∀ (l : List ATrain) (s : Session),
      (l.foldl speedStep s).closestDistance = s.closestDistance ∧
      (l.foldl speedStep s).closestTrain = s.closestTrain := by
  intro l
  induction l with
  | nil => intro s; exact ⟨rfl, rfl⟩
  | cons t ts ih =>
    intro s
    simp only [List.foldl_cons]
    obtain ⟨h1, h2⟩ := ih (speedStep s t)
    constructor
    · rw [h1]
      unfold speedStep
      split <;> rfl
    · rw [h2]
      unfold speedStep
      split <;> rfl

end Tracker
/-- Claim C6: at the end of a poll cycle the Previous-Distance Table is the
mapping `{id → distance}` over the full incoming batch and nothing else: a
lookup returns the haversine distance of the last batch record with that id,
independently of the previous table's contents (wholesale replacement, so
ids absent from the batch are dropped). -/
theorem C6_previous_replaced_wholesale (geo : Geo) (dayOf : Nat → Nat)
    (now : Nat) (st : Tracker.State) (trains : List Train)
    (userLat userLon radius : ℚ) (id : String) :
    Tracker.mapGet
        ((Tracker.processTrains geo dayOf now st trains userLat userLon
            radius).1).previousTrains id =
      (trains.reverse.find? fun t => t.trainID == id).map
        (fun t => geo.haversineDistance userLat userLon t.lat t.lon) := by
  have hprev :
      ((Tracker.processTrains geo dayOf now st trains userLat userLon
          radius).1).previousTrains =
        (trains.map (Tracker.annotate geo userLat userLon)).foldl
          (fun m t => Tracker.mapSet m t.trainID t.distance) [] := by
    simp [Tracker.processTrains]
  rw [hprev, List.foldl_map]
  simp only [Tracker.annotate_trainID, Tracker.annotate_distance]
  rw [Tracker.mapGet_setAll (fun t => geo.haversineDistance userLat userLon t.lat t.lon)
    trains [] id]
  rcases hfind : trains.reverse.find? (fun t => t.trainID == id) with _ | u <;>
    simp [hfind, Tracker.mapGet]
/-- Witness for C6: an id present in the old table but absent from the batch
is gone after the poll. -/
theorem C6_previous_replaced_wholesale_witness :
    Tracker.mapGet
        ((Tracker.processTrains exampleGeo (fun t => t) 0
            { exampleState with previousTrains := [("old-id", 3)] }
            [{ trainID := "a", trainNum := "", routeName := "", provider := "",
               lat := 4, lon := 0, velocity := 0, heading := "", origName := "",
               destName := "", trainState := "" }] 0 0 10).1).previousTrains
      "old-id" = none :=
  (C6_previous_replaced_wholesale exampleGeo (fun t => t) 0
      { exampleState with previousTrains := [("old-id", 3)] } _ 0 0 10
      "old-id").trans (by decide)

namespace Tracker

/-- The session after one poll, in closed form: the closest-candidate update
(strict comparison against `nearby[0]`) followed by the speed accumulation
over the classified nearby list. -/
theorem processTrains_session (geo : Geo) (dayOf : Nat → Nat) (now : Nat)
    (st : State) (trains : List Train) (u v r : ℚ) :
    ((processTrains geo dayOf now st trains u v r).1).session =
      ((nearbyOf geo trains u v r).map (classify st.previousTrains)).foldl speedStep
        (match ((nearbyOf geo trains u v r).map (classify st.previousTrains)).head? with
         | some c =>
           if (c.distance : WithTop ℚ) < st.session.closestDistance then
             { st.session with
               closestDistance := (c.distance : WithTop ℚ)
               closestTrain := some c }
           else st.session
         | none => st.session) := by
  obtain ⟨hlist, hsess⟩ := nearbyFold dayOf now (nearbyOf geo trains u v r) st []
  simp only [processTrains, hlist, hsess, List.nil_append]

/-- One poll takes the running closest distance to the minimum of its old
value and the distance at sort-position 0 of the filtered output (nothing
nearby changes nothing), and on a tie the whole closest-holder is kept. -/
theorem processTrains_closest (geo : Geo) (dayOf : Nat → Nat) (now : Nat)
    (st : State) (trains : List Train) (u v r : ℚ) :
    (((processTrains geo dayOf now st trains u v r).1).session.closestDistance =
      match closestDist geo trains u v r with
      | none => st.session.closestDistance
      | some d => min st.session.closestDistance (d : WithTop ℚ)) ∧
    (∀ d : ℚ, closestDist geo trains u v r = some d →
      st.session.closestDistance = (d : WithTop ℚ) →
      ((processTrains geo dayOf now st trains u v r).1).session.closestTrain =
        st.session.closestTrain) := by
  have hhead :
      ((nearbyOf geo trains u v r).map (classify st.previousTrains)).head? =
        (nearbyOf geo trains u v r).head?.map (classify st.previousTrains) :=
    List.head?_map _ _
  constructor
  · rw [processTrains_session, (speedFold_session _ _).1, hhead]
    unfold closestDist
    rcases hh : (nearbyOf geo trains u v r).head? with _ | a
    · rfl
    · simp only [Option.map_some', classify_distance]
      by_cases hlt : ((a.distance : WithTop ℚ) < st.session.closestDistance)
      · rw [if_pos hlt]
        exact (min_eq_right (le_of_lt hlt)).symm
      · rw [if_neg hlt]
        exact (min_eq_left (not_lt.mp hlt)).symm
  · intro d hd htie
    unfold closestDist at hd
    rcases hh : (nearbyOf geo trains u v r).head? with _ | a
    · rw [hh] at hd
      exact absurd hd (by simp)
    · rw [hh] at hd
      have had : a.distance = d := by simpa using hd
      rw [processTrains_session, (speedFold_session _ _).2, hhead, hh]
      simp only [Option.map_some', classify_distance]
      rw [if_neg]
      rw [had, htie]
      exact lt_irrefl _

end Tracker

/-- Claim C7: across any sequence of polls since the last reset, the
session's running closest distance is non-increasing and equals the minimum,
starting from `+∞` (`⊤`, the reset value), over all polls of the distance of
the record at sort-position 0 of the filtered output; it is updated only on
a strict improvement, so a tie keeps both the value and the existing
closest-holder record. -/
theorem C7_session_minimum (geo : Geo) (dayOf : Nat → Nat) (now : Nat)
    (userLat userLon radius : ℚ) :
    (∀ (st : Tracker.State) (trains : List Train),
      ((Tracker.processTrains geo dayOf now st trains userLat userLon
          radius).1).session.closestDistance ≤ st.session.closestDistance) ∧
    (∀ (st : Tracker.State) (now' : Nat),
      (Tracker.resetSession now' st).session.closestDistance = ⊤) ∧
    (∀ (st : Tracker.State) (batches : List (List Train)),
      (Tracker.runPolls geo dayOf now userLat userLon radius st
          batches).session.closestDistance =
        batches.foldl
          (fun a b =>
            match Tracker.closestDist geo b userLat userLon radius with
            | none => a
            | some d => min a (d : WithTop ℚ))
          st.session.closestDistance) ∧
    (∀ (st : Tracker.State) (trains : List Train) (d : ℚ),
      Tracker.closestDist geo trains userLat userLon radius = some d →
      st.session.closestDistance = (d : WithTop ℚ) →
      ((Tracker.processTrains geo dayOf now st trains userLat userLon
          radius).1).session.closestTrain = st.session.closestTrain ∧
      ((Tracker.processTrains geo dayOf now st trains userLat userLon
          radius).1).session.closestDistance = st.session.closestDistance) := by
  refine ⟨?_, fun st now' => rfl, ?_, ?_⟩
  · intro st trains
    rw [(Tracker.processTrains_closest geo dayOf now st trains userLat userLon
      radius).1]
    rcases Tracker.closestDist geo trains userLat userLon radius with _ | d
    · exact le_refl _
    · exact min_le_left _ _
  · intro st batches
    induction batches generalizing st with
    | nil => rfl
    | cons b bs ih =>
      simp only [Tracker.runPolls, List.foldl_cons] at ih ⊢
      rw [ih]
      congr 1
      rw [(Tracker.processTrains_closest geo dayOf now st b userLat userLon
        radius).1]
  · intro st trains d hd htie
    refine ⟨(Tracker.processTrains_closest geo dayOf now st trains userLat userLon
      radius).2 d hd htie, ?_⟩
    rw [(Tracker.processTrains_closest geo dayOf now st trains userLat userLon
      radius).1, hd, htie]
    exact min_self _

/-- Witness for C7: three concrete polls (position-0 distances 5, then 3,
then an empty poll) drive the session minimum from `⊤` to 3. -/
theorem C7_session_minimum_witness :
    (Tracker.runPolls exampleGeo (fun t => t) 0 0 0 10 exampleState
        [[{ trainID := "a", trainNum := "", routeName := "", provider := "",
            lat := 5, lon := 0, velocity := 0, heading := "", origName := "",
            destName := "", trainState := "" }],
         [{ trainID := "a", trainNum := "", routeName := "", provider := "",
            lat := 3, lon := 0, velocity := 0, heading := "", origName := "",
            destName := "", trainState := "" }],
         []]).session.closestDistance = ((3 : ℚ) : WithTop ℚ) :=
  ((C7_session_minimum exampleGeo (fun t => t) 0 0 0 10).2.2.1 exampleState
    _).trans (by decide)

namespace Tracker

/-- Insertion only adds the inserted element. -/
theorem mem_insertByDistance {x a : ATrain} :
    ∀ {l : List ATrain}, x ∈ insertByDistance a l → x = a ∨ x ∈ l := by
  intro l
  induction l with
  | nil =>
    intro h
    simp only [insertByDistance] at h
    simp at h
    exact Or.inl h
  | cons b bs ih =>
    intro h
    simp only [insertByDistance] at h
    split at h
    · rcases List.mem_cons.mp h with h | h
      · exact Or.inr (List.mem_cons.mpr (Or.inl h))
      · rcases ih h with h | h
        · exact Or.inl h
        · exact Or.inr (List.mem_cons.mpr (Or.inr h))
    · rcases List.mem_cons.mp h with h | h
      · exact Or.inl h
      · exact Or.inr h

/-- The sort is a permutation as far as membership goes. -/
theorem mem_sortByDistance {x : ATrain} :
    ∀ {l : List ATrain}, x ∈ sortByDistance l → x ∈ l := by
  intro l
  induction l with
  | nil => intro h; exact absurd h (by simp [sortByDistance])
  | cons b bs ih =>
    intro h
    simp only [sortByDistance, List.foldr_cons] at h
    rcases mem_insertByDistance h with h | h
    · exact List.mem_cons.mpr (Or.inl h)
    · exact List.mem_cons.mpr (Or.inr (ih h))

/-- A single-record poll whose record is within radius: the nearby output is
that record, classified, and the new Previous-Distance Table is exactly
`{id → distance}`. -/
theorem processTrains_single (geo : Geo) (dayOf : Nat → Nat) (now : Nat)
    (st : State) (t : Train) (u v r : ℚ)
    (hd : geo.haversineDistance u v t.lat t.lon ≤ r) :
    (processTrains geo dayOf now st [t] u v r).2.nearby =
      [classify st.previousTrains (annotate geo u v t)] ∧
    ((processTrains geo dayOf now st [t] u v r).1).previousTrains =
      [(t.trainID, geo.haversineDistance u v t.lat t.lon)] := by
  have hdec : decide ((annotate geo u v t).distance ≤ r) = true := by
    simpa using hd
  have hnb : nearbyOf geo [t] u v r = [annotate geo u v t] := by
    unfold nearbyOf
    simp only [List.map_cons, List.map_nil, List.filter, hdec]
    rfl
  constructor
  · have hlist := (nearbyFold dayOf now (nearbyOf geo [t] u v r) st []).1
    have hout : (processTrains geo dayOf now st [t] u v r).2.nearby =
        [] ++ (nearbyOf geo [t] u v r).map (classify st.previousTrains) := by
      simp only [processTrains, hlist]
    rw [hout, hnb]
    simp
  · simp only [processTrains, List.map_cons, List.map_nil, List.foldl_cons,
      List.foldl_nil]
    simp [mapSet]

end Tracker

/-- Claim C3: for one vehicle id whose distances across three successive
polls (all within radius) are 10, 7, 9 miles, poll 2 marks it
`approaching = true` and poll 3 marks it `receding = true` with
`closestApproach = 7` (the previous poll's distance, recorded
retroactively); and a record whose id is absent from the Previous-Distance
Table gets neither classification and no closest-approach value. -/
theorem C3_approach_recede_correct :
    (∀ (geo : Geo) (dayOf : Nat → Nat) (now : Nat) (st0 : Tracker.State)
        (t1 t2 t3 : Train) (u v r : ℚ),
      t2.trainID = t1.trainID → t3.trainID = t1.trainID →
      geo.haversineDistance u v t1.lat t1.lon = 10 →
      geo.haversineDistance u v t2.lat t2.lon = 7 →
      geo.haversineDistance u v t3.lat t3.lon = 9 →
      (10 : ℚ) ≤ r →
      ((Tracker.processTrains geo dayOf now
            ((Tracker.processTrains geo dayOf now st0 [t1] u v r).1)
            [t2] u v r).2.nearby.map
          (fun t => (t.approaching, t.receding, t.closestApproach)) =
        [(true, false, none)] ∧
       (Tracker.processTrains geo dayOf now
            ((Tracker.processTrains geo dayOf now
                ((Tracker.processTrains geo dayOf now st0 [t1] u v r).1)
                [t2] u v r).1)
            [t3] u v r).2.nearby.map
          (fun t => (t.approaching, t.receding, t.closestApproach)) =
        [(false, true, some 7)])) ∧
    (∀ (geo : Geo) (dayOf : Nat → Nat) (now : Nat) (st : Tracker.State)
        (trains : List Train) (u v r : ℚ) (t : ATrain),
      t ∈ (Tracker.processTrains geo dayOf now st trains u v r).2.nearby →
      Tracker.mapGet st.previousTrains t.trainID = none →
      t.approaching = false ∧ t.receding = false ∧ t.closestApproach = none) := by
  constructor
  · intro geo dayOf now st0 t1 t2 t3 u v r ht2 ht3 hd1 hd2 hd3 hr
    have hr10 : geo.haversineDistance u v t1.lat t1.lon ≤ r := by rw [hd1]; linarith
    have hr7 : geo.haversineDistance u v t2.lat t2.lon ≤ r := by rw [hd2]; linarith
    have hr9 : geo.haversineDistance u v t3.lat t3.lon ≤ r := by rw [hd3]; linarith
    obtain ⟨hn1, hp1⟩ := Tracker.processTrains_single geo dayOf now st0 t1 u v r hr10
    rw [hd1] at hp1
    obtain ⟨hn2, hp2⟩ := Tracker.processTrains_single geo dayOf now
      ((Tracker.processTrains geo dayOf now st0 [t1] u v r).1) t2 u v r hr7
    rw [hd2] at hp2
    obtain ⟨hn3, _⟩ := Tracker.processTrains_single geo dayOf now
      ((Tracker.processTrains geo dayOf now
          ((Tracker.processTrains geo dayOf now st0 [t1] u v r).1)
          [t2] u v r).1) t3 u v r hr9
    have hm2 : Tracker.mapGet
        ((Tracker.processTrains geo dayOf now st0 [t1] u v r).1).previousTrains
        (Tracker.annotate geo u v t2).trainID = some 10 := by
      rw [hp1, Tracker.annotate_trainID, ht2]
      simp [Tracker.mapGet]
    have hm3 : Tracker.mapGet
        ((Tracker.processTrains geo dayOf now
            ((Tracker.processTrains geo dayOf now st0 [t1] u v r).1)
            [t2] u v r).1).previousTrains
        (Tracker.annotate geo u v t3).trainID = some 7 := by
      rw [hp2, Tracker.annotate_trainID, ht3, ← ht2]
      simp [Tracker.mapGet]
    constructor
    · rw [hn2, Tracker.classify_of_some hm2]
      simp only [List.map_cons, List.map_nil, Tracker.annotate_distance,
        Tracker.annotate_closestApproach, hd2]
      norm_num
    · rw [hn3, Tracker.classify_of_some hm3]
      simp only [List.map_cons, List.map_nil, Tracker.annotate_distance,
        Tracker.annotate_closestApproach, hd3]
      norm_num
  · intro geo dayOf now st trains u v r t hmem hnone
    have hlist := (Tracker.nearbyFold dayOf now
      (Tracker.nearbyOf geo trains u v r) st []).1
    have hout : (Tracker.processTrains geo dayOf now st trains u v r).2.nearby =
        (Tracker.nearbyOf geo trains u v r).map
          (Tracker.classify st.previousTrains) := by
      simp only [Tracker.processTrains, hlist, List.nil_append]
    rw [hout] at hmem
    obtain ⟨t0, ht0mem, rfl⟩ := List.mem_map.mp hmem
    rw [Tracker.classify_trainID] at hnone
    rw [Tracker.classify_of_none hnone]
    refine ⟨rfl, rfl, ?_⟩
    unfold Tracker.nearbyOf at ht0mem
    have ht0f := Tracker.mem_sortByDistance ht0mem
    have ht0m := (List.mem_filter.mp ht0f).1
    obtain ⟨t00, _, rfl⟩ := List.mem_map.mp ht0m
    exact Tracker.annotate_closestApproach geo u v t00

/-- Witness for C3: the three polls at distances 10, 7, 9. -/
theorem C3_approach_recede_correct_witness :
    (Tracker.processTrains exampleGeo (fun t => t) 0
        ((Tracker.processTrains exampleGeo (fun t => t) 0 exampleState
            [trainAt 10] 0 0 10).1)
        [trainAt 7] 0 0 10).2.nearby.map
      (fun t => (t.approaching, t.receding, t.closestApproach)) =
      [(true, false, none)] ∧
    (Tracker.processTrains exampleGeo (fun t => t) 0
        ((Tracker.processTrains exampleGeo (fun t => t) 0
            ((Tracker.processTrains exampleGeo (fun t => t) 0 exampleState
                [trainAt 10] 0 0 10).1)
            [trainAt 7] 0 0 10).1)
        [trainAt 9] 0 0 10).2.nearby.map
      (fun t => (t.approaching, t.receding, t.closestApproach)) =
      [(false, true, some 7)] :=
  C3_approach_recede_correct.1 exampleGeo (fun t => t) 0 exampleState
    (trainAt 10) (trainAt 7) (trainAt 9) 0 0 10 rfl rfl rfl rfl rfl (by decide)
